import Mathlib

/-!
Shallow embedding of the LinkedIn post-generator workflow core
(`models.py`, `discord_linkedin_bot.py`, `linkedin_publisher.py`,
`db_monitor.py`), together with proofs about the spec claims.

The persistent store is modelled as a list of `LinkedInDraft` records
(the `linkedin_drafts` table, keyed by `draft_id`); SQLAlchemy's
`query(...).filter(...).first()` becomes a first-match scan, `.all()`
with a filter becomes `List.filter`, and dynamic `setattr` keyword
updates become a fold over `(key, value)` pairs guarded by the same
`hasattr` check as the source. Timestamps are abstract `Nat` ticks;
the wall clock `datetime.datetime.now()` is passed in as a `now`
parameter.
-/

/-- The `PostStatus` enum of `models.py`. -/
inductive PostStatus
  | PENDING
  | APPROVED_FOR_SOCIALS
  | DECLINED
  | POSTED
deriving DecidableEq

/-- The `.value` string of each `PostStatus` member, exactly as in `models.py`. -/
def PostStatus.value : PostStatus → String
  | .PENDING => "pending"
  | .APPROVED_FOR_SOCIALS => "approved_for_socials"
  | .DECLINED => "declined"
  | .POSTED => "posted"

/-- A dynamically typed Python value as passed through `**kwargs` to
`Database.update_post_status`: a string, an integer, a timestamp, or `None`. -/
inductive PyValue
  | vstr (s : String)
  | vint (n : Nat)
  | vtime (t : Nat)
  | vnone
deriving DecidableEq

/-- Value stored into a nullable `Text` column (`None` clears it). -/
def PyValue.asOptText : PyValue → Option String
  | .vstr s => some s
  | _ => none

/-- Value stored into a non-nullable `Text` column; a non-string assignment
would fail at commit time in the source, so the old value is kept. -/
def PyValue.asText (old : String) : PyValue → String
  | .vstr s => s
  | _ => old

/-- Value stored into a nullable `DateTime` column. -/
def PyValue.asOptTime : PyValue → Option Nat
  | .vtime t => some t
  | _ => none

/-- Value stored into the non-nullable `created_at` column. -/
def PyValue.asTime (old : Nat) : PyValue → Nat
  | .vtime t => t
  | _ => old

/-- Value stored into the `Integer` column `retry_count`. -/
def PyValue.asInt : PyValue → Nat
  | .vint n => n
  | _ => 0

/-- One row of the `linkedin_drafts` table (`class LinkedInDraft` in
`models.py`).  Nullable columns are `Option`; `retry_count` has the client-side
default `0` applied on insertion, so rows created through this code are never
null there. -/
structure LinkedInDraft where
  draft_id : String
  status : String
  post : Option String
  image_base64 : Option String
  image_mime : Option String
  source : Option String
  token : Option String
  created_at : Nat
  approved_at : Option Nat
  posted_at : Option Nat
  linkedin_post_id : Option String
  approver_email : Option String
  post_path : Option String
  image_path : Option String
  discord_message_id : Option String
  discord_channel_id : Option String
  discord_approver : Option String
  industry : Option String
  audience : Option String
  golden_threads : Option String
  last_error : Option String
  retry_count : Nat
deriving DecidableEq

/-- The column attributes of a `LinkedInDraft` instance, i.e. the names for
which the `hasattr(post, key)` check in `Database.update_post_status`
succeeds and assignment is meaningful.  The read-only `@property` helpers
`content` and `id` are omitted: assigning to them raises in Python and no
call site passes them as keywords. -/
def linkedInDraftColumns : List String :=
  ["draft_id", "status", "post", "image_base64", "image_mime", "source",
   "token", "created_at", "approved_at", "posted_at", "linkedin_post_id",
   "approver_email", "post_path", "image_path", "discord_message_id",
   "discord_channel_id", "discord_approver", "industry", "audience",
   "golden_threads", "last_error", "retry_count"]

/-- The `hasattr(post, key)` guard of `Database.update_post_status`. -/
def hasattrLinkedInDraft (key : String) : Bool :=
  linkedInDraftColumns.contains key

/-- The `setattr(post, key, value)` call of `Database.update_post_status`,
dispatched on the attribute name. -/
def setattrLinkedInDraft (p : LinkedInDraft) (key : String) (v : PyValue) :
    LinkedInDraft :=
  match key with
  | "draft_id" => { p with draft_id := v.asText p.draft_id }
  | "status" => { p with status := v.asText p.status }
  | "post" => { p with post := v.asOptText }
  | "image_base64" => { p with image_base64 := v.asOptText }
  | "image_mime" => { p with image_mime := v.asOptText }
  | "source" => { p with source := v.asOptText }
  | "token" => { p with token := v.asOptText }
  | "created_at" => { p with created_at := v.asTime p.created_at }
  | "approved_at" => { p with approved_at := v.asOptTime }
  | "posted_at" => { p with posted_at := v.asOptTime }
  | "linkedin_post_id" => { p with linkedin_post_id := v.asOptText }
  | "approver_email" => { p with approver_email := v.asOptText }
  | "post_path" => { p with post_path := v.asOptText }
  | "image_path" => { p with image_path := v.asOptText }
  | "discord_message_id" => { p with discord_message_id := v.asOptText }
  | "discord_channel_id" => { p with discord_channel_id := v.asOptText }
  | "discord_approver" => { p with discord_approver := v.asOptText }
  | "industry" => { p with industry := v.asOptText }
  | "audience" => { p with audience := v.asOptText }
  | "golden_threads" => { p with golden_threads := v.asOptText }
  | "last_error" => { p with last_error := v.asOptText }
  | "retry_count" => { p with retry_count := v.asInt }
  | _ => p

/-- One iteration of the keyword loop in `Database.update_post_status`:
`if hasattr(post, key): setattr(post, key, value)` — an unrecognised key is
silently skipped. -/
def applyKwarg (q : LinkedInDraft) (kv : String × PyValue) : LinkedInDraft :=
  if hasattrLinkedInDraft kv.1 then setattrLinkedInDraft q kv.1 kv.2 else q

/-- The record mutation performed by `Database.update_post_status` on the
found row: set `status`, set the status-derived timestamp, then apply the
keyword updates in order. -/
def applyUpdate (status : PostStatus) (kwargs : List (String × PyValue))
    (now : Nat) (p : LinkedInDraft) : LinkedInDraft :=
  let p1 : LinkedInDraft := { p with status := status.value }
  let p2 : LinkedInDraft :=
    if status = PostStatus.APPROVED_FOR_SOCIALS then
      { p1 with approved_at := some now }
    else if status = PostStatus.POSTED then
      { p1 with posted_at := some now }
    else p1
  kwargs.foldl applyKwarg p2

/-- The persistent store: the rows of the `linkedin_drafts` table. -/
abbrev Store := List LinkedInDraft

/-- `session.query(LinkedInDraft).filter(LinkedInDraft.draft_id == draft_id).first()`. -/
def findDraft (store : Store) (draft_id : String) : Option LinkedInDraft :=
  store.find? (fun p => p.draft_id == draft_id)

/-- Apply `f` to the first row matching `draft_id`; return the updated row
(`None` when absent, as the Python function then falls through and returns
`None`) together with the new table contents. -/
def updateFirst (store : Store) (draft_id : String)
    (f : LinkedInDraft → LinkedInDraft) : Option LinkedInDraft × Store :=
  match store with
  | [] => (none, [])
  | p :: rest =>
    if p.draft_id == draft_id then (some (f p), f p :: rest)
    else
      let r := updateFirst rest draft_id f
      (r.1, p :: r.2)

/-- `Database.update_post_status` of `models.py`: find the row by primary key;
if present, set the status, stamp `approved_at`/`posted_at` when the new
status warrants it, apply the `hasattr`-guarded keyword updates, commit, and
return the row; if absent, do nothing and return `None`. -/
def Database.update_post_status (store : Store) (draft_id : String)
    (status : PostStatus) (kwargs : List (String × PyValue)) (now : Nat) :
    Option LinkedInDraft × Store :=
  updateFirst store draft_id (applyUpdate status kwargs now)

/-- `Database.get_pending_posts`: all rows with status `"pending"` whose
`discord_message_id` is null. -/
def Database.get_pending_posts (store : Store) : List LinkedInDraft :=
  store.filter (fun p =>
    p.status == PostStatus.PENDING.value && p.discord_message_id.isNone)

/-- `Database.get_approved_posts`: all rows with status
`"approved_for_socials"` whose `linkedin_post_id` is null. -/
def Database.get_approved_posts (store : Store) : List LinkedInDraft :=
  store.filter (fun p =>
    p.status == PostStatus.APPROVED_FOR_SOCIALS.value &&
      p.linkedin_post_id.isNone)

/-- `Database.create_post`: insert a fresh row in status `"pending"` with the
given content, default source `"discord-bot"`, server-assigned creation time
and the column defaults everywhere else (optional metadata keywords from the
`test_post` command are omitted here; they only fill `industry`/`audience`/
`golden_threads` and no claim depends on them). -/
def Database.create_post (store : Store) (content : String)
    (draft_id : String) (now : Nat) : LinkedInDraft × Store :=
  let post : LinkedInDraft :=
    { draft_id := draft_id
      status := PostStatus.PENDING.value
      post := some content
      image_base64 := none
      image_mime := none
      source := some "discord-bot"
      token := none
      created_at := now
      approved_at := none
      posted_at := none
      linkedin_post_id := none
      approver_email := none
      post_path := none
      image_path := none
      discord_message_id := none
      discord_channel_id := none
      discord_approver := none
      industry := none
      audience := none
      golden_threads := none
      last_error := none
      retry_count := 0 }
  (post, store ++ [post])

/-- Python truthiness of an optional string (`if not s:` is taken for `None`
and for the empty string). -/
def pyTruthyOptStr : Option String → Bool
  | none => false
  | some s => !s.isEmpty

/-- Python whitespace as tested by `str.strip()`. -/
def isPySpace (ch : Char) : Bool :=
  ch == ' ' || ch == '\t' || ch == '\n' || ch == '\r' || ch == '\x0b' ||
    ch == '\x0c'

/-- The Python `s.strip()`: remove leading and trailing whitespace. -/
def pyStrip (s : String) : String :=
  String.mk (((s.data.dropWhile isPySpace).reverse.dropWhile
    isPySpace).reverse)

/-- Does `hay` start with `needle`? (helper for the Python `in` operator). -/
def startsWithList : List Char → List Char → Bool
  | _, [] => true
  | [], _ :: _ => false
  | a :: as, b :: bs => a == b && startsWithList as bs

/-- Does `hay` contain `needle` as a contiguous run? -/
def hasSubList (hay needle : List Char) : Bool :=
  match hay with
  | [] => needle.isEmpty
  | _ :: t => startsWithList hay needle || hasSubList t needle

/-- The Python substring test `needle in hay`. -/
def strContainsSub (hay needle : String) : Bool :=
  hasSubList hay.data needle.data

/-- The Python `sep.join(parts)`. -/
def joinSep (sep : String) : List String → String
  | [] => ""
  | [x] => x
  | x :: y :: rest => x ++ sep ++ joinSep sep (y :: rest)

/-- `LinkedInPublisher._generate_post_url`: a URL is derived only from a
truthy id in `urn:li:share:` URN format, by taking the last `:`-separated
component; anything else yields `None`. -/
def LinkedInPublisher.generate_post_url (linkedin_post_id : Option String) :
    Option String :=
  match linkedin_post_id with
  | none => none
  | some pid =>
    if pid.isEmpty then none
    else if strContainsSub pid "urn:li:share:" then
      some ("https://www.linkedin.com/posts/activity-" ++
        ((pid.splitOn ":").getLastD ""))
    else none

/-- `LinkedInPublisher._validate_post`: collect validation errors for missing
credentials, blank content and over-long content.  In the source
`len(post.content)` would raise on a null content; that path is subsumed here
by the `"Post content is empty"` error already emitted for null content (the
length of absent content is taken as 0), and every claim exercises a present
content. -/
def LinkedInPublisher.validate_post (access_token person_id : Option String)
    (p : LinkedInDraft) : List String :=
  (if !pyTruthyOptStr access_token then
    ["LinkedIn access token not configured"] else [])
  ++ (if !pyTruthyOptStr person_id then
    ["LinkedIn person ID not configured"] else [])
  ++ (if !pyTruthyOptStr p.post || (pyStrip (p.post.getD "")).isEmpty then
    ["Post content is empty"] else [])
  ++ (if (p.post.getD "").length > 3000 then
    ["Post content exceeds LinkedIn\x27s 3000 character limit"] else [])

/-- Outcome of the single outbound `requests.post` call to the publishing
target: a 201 response carrying the new post id, a non-201 response, or a
raised network error. -/
inductive HttpOutcome
  | created201 (post_id : String)
  | httpError (code : Nat) (text : String)
  | netError (msg : String)
deriving DecidableEq

/-- The dictionary returned by `LinkedInPublisher.publish_post`. -/
structure PublishResult where
  success : Bool
  linkedin_post_id : Option String
  linkedin_url : Option String
  error : Option String
deriving DecidableEq

/-- Lift an optional URL into the keyword value passed to the store. -/
def optStrToPyValue : Option String → PyValue
  | some s => .vstr s
  | none => .vnone

/-- `LinkedInPublisher.publish_post`: validate, then interpret the HTTP
outcome.  A validation failure raises `ValueError`, lands in the outer
`except`, marks the row `declined` with `retry_count` bumped from the
in-memory row and the validation text in `last_error`.  A 201 response marks
the row `posted` with the external id (and a `linkedin_url` keyword) and
returns success; a non-201 response or network error marks the row `declined`
with `retry_count` bumped and the error text recorded. -/
def LinkedInPublisher.publish_post (access_token person_id : Option String)
    (store : Store) (post : LinkedInDraft) (resp : HttpOutcome) (now : Nat) :
    PublishResult × Store :=
  let validation_errors := LinkedInPublisher.validate_post access_token person_id post
  if validation_errors ≠ [] then
    let error_message := "Error publishing post " ++ post.draft_id ++
      ": Post validation failed: " ++ joinSep "; " validation_errors
    let upd := Database.update_post_status store post.draft_id PostStatus.DECLINED
      [("last_error", .vstr error_message),
       ("retry_count", .vint (post.retry_count + 1))] now
    ({ success := false, linkedin_post_id := none, linkedin_url := none,
       error := some error_message }, upd.2)
  else
    match resp with
    | .created201 pid =>
      let upd := Database.update_post_status store post.draft_id PostStatus.POSTED
        [("linkedin_post_id", .vstr pid),
         ("linkedin_url",
           optStrToPyValue (LinkedInPublisher.generate_post_url (some pid)))] now
      ({ success := true, linkedin_post_id := some pid,
         linkedin_url := LinkedInPublisher.generate_post_url (some pid),
         error := none }, upd.2)
    | .httpError code text =>
      let error_message := "LinkedIn API error: " ++ toString code ++ " - " ++ text
      let upd := Database.update_post_status store post.draft_id PostStatus.DECLINED
        [("last_error", .vstr error_message),
         ("retry_count", .vint (post.retry_count + 1))] now
      ({ success := false, linkedin_post_id := none, linkedin_url := none,
         error := some error_message }, upd.2)
    | .netError msg =>
      let error_message := "Error publishing post " ++ post.draft_id ++ ": " ++ msg
      let upd := Database.update_post_status store post.draft_id PostStatus.DECLINED
        [("last_error", .vstr error_message),
         ("retry_count", .vint (post.retry_count + 1))] now
      ({ success := false, linkedin_post_id := none, linkedin_url := none,
         error := some error_message }, upd.2)

/-- The three button actions of `ApprovalView` in `discord_linkedin_bot.py`. -/
inductive ApprovalAction
  | approved
  | rejected
  | edit_requested
deriving DecidableEq

/-- `ApprovalView.handle_approval`: the store write performed for each
reviewer action.  `user_identifier` is the computed Discord user string.
Note that the source performs no check of the record's current status:
`Database.update_post_status` is invoked unconditionally. -/
def ApprovalView.handle_approval (store : Store) (draft_id : String)
    (action : ApprovalAction) (user_identifier : String) (now : Nat) :
    Option LinkedInDraft × Store :=
  match action with
  | .approved =>
    Database.update_post_status store draft_id PostStatus.APPROVED_FOR_SOCIALS
      [("discord_approver", .vstr user_identifier)] now
  | .rejected =>
    Database.update_post_status store draft_id PostStatus.DECLINED
      [("discord_approver", .vstr user_identifier),
       ("last_error", .vstr "Rejected via Discord button")] now
  | .edit_requested =>
    Database.update_post_status store draft_id PostStatus.PENDING
      [("discord_approver", .vstr user_identifier),
       ("last_error", .vstr "Edit requested via Discord button")] now

/-- `LinkedInBot.send_approval_request`: after posting the approval message to
Discord, record the message and channel ids on the row (status re-written as
`"pending"`). -/
def LinkedInBot.send_approval_request (store : Store) (p : LinkedInDraft)
    (message_id channel_id : String) (now : Nat) : Store :=
  (Database.update_post_status store p.draft_id PostStatus.PENDING
    [("discord_message_id", .vstr message_id),
     ("discord_channel_id", .vstr channel_id)] now).2

/-- `DatabaseMonitor.check_for_pending_posts`: surface every row returned by
`get_pending_posts`, collecting the draft ids notified to Discord.
`message_id`/`channel_id` give the Discord identifiers returned for each
surfaced draft. -/
def DatabaseMonitor.check_for_pending_posts (store : Store)
    (message_id channel_id : String → String) (now : Nat) :
    List String × Store :=
  (Database.get_pending_posts store).foldl
    (fun acc p =>
      (acc.1 ++ [p.draft_id],
       LinkedInBot.send_approval_request acc.2 p (message_id p.draft_id)
         (channel_id p.draft_id) now))
    ([], store)

/-- Environment of one monitoring cycle: whether the cycle body raised an
unexpected error, and whether `stop_monitoring` was called while the cycle
was in flight. -/
structure CycleInput where
  cycleError : Bool
  stopDuring : Bool
deriving DecidableEq

/-- Result of running the monitoring loop against a finite schedule of cycle
environments: either the loop observed `running == False` at the top of an
iteration and exited after completing `cyclesCompleted` cycles, or the
schedule ran out with the loop still live. -/
inductive MonitorResult
  | stopped (cyclesCompleted : Nat)
  | stillRunning (cyclesCompleted : Nat)
deriving DecidableEq

/-- `DatabaseMonitor.start_monitoring`: `while self.running:` runs the cycle
body inside `try`/`except` — an error is logged and followed by a fixed
backoff sleep, never a `break` or re-raise — so each scheduled cycle runs to
completion and only the `running` flag, re-read between cycles, ends the
loop.  A stop requested during a cycle clears the flag for the next
iteration check. -/
def DatabaseMonitor.start_monitoring (running : Bool) :
    List CycleInput → MonitorResult
  | [] => if running then .stillRunning 0 else .stopped 0
  | inp :: rest =>
    if running then
      match DatabaseMonitor.start_monitoring (running && !inp.stopDuring) rest with
      | .stopped n => .stopped (n + 1)
      | .stillRunning n => .stillRunning (n + 1)
    else .stopped 0

/-- The sleep taken at the end of a cycle: the configured poll interval
normally, the fixed 10 second backoff after a caught error. -/
def DatabaseMonitor.cycle_backoff (poll_interval : Nat) (inp : CycleInput) : Nat :=
  if inp.cycleError then 10 else poll_interval

/-- Publisher credentials drawn from `Config` (null when the environment
variable is unset). -/
structure Env where
  access_token : Option String
  person_id : Option String

/-- One externally triggered operation of the workflow core: intake creation,
the reconciliation loop surfacing a pending row, a reviewer button press, or
the reconciliation loop attempting publication of an approved row with a
given external outcome. -/
inductive CoreOp
  | createOp (content draft_id : String)
  | surfaceOp (draft_id message_id channel_id : String)
  | decideOp (draft_id : String) (action : ApprovalAction) (user : String)
  | publishOp (draft_id : String) (resp : HttpOutcome)

/-- Effect of one core operation on the store.  Surfacing and publishing act
only on rows selected by the respective reconciliation queries (that is how
`db_monitor.py` reaches them); a reviewer decision is applied through
`handle_approval`, which performs no status precondition check. -/
def applyOp (env : Env) (store : Store) (now : Nat) : CoreOp → Store
  | .createOp content draft_id =>
    (Database.create_post store content draft_id now).2
  | .surfaceOp draft_id message_id channel_id =>
    match (Database.get_pending_posts store).find?
        (fun p => p.draft_id == draft_id) with
    | some p => LinkedInBot.send_approval_request store p message_id channel_id now
    | none => store
  | .decideOp draft_id action user =>
    (ApprovalView.handle_approval store draft_id action user now).2
  | .publishOp draft_id resp =>
    match (Database.get_approved_posts store).find?
        (fun p => p.draft_id == draft_id) with
    | some p =>
      (LinkedInPublisher.publish_post env.access_token env.person_id store p
        resp now).2
    | none => store

/-- Stores reachable from the empty table through the core operations. -/
inductive Reachable (env : Env) : Store → Prop
  | init : Reachable env []
  | step {s : Store} (op : CoreOp) (now : Nat) :
      Reachable env s → Reachable env (applyOp env s now op)

/-- Primary-key property of the `linkedin_drafts` table: draft ids are
pairwise distinct. -/
def distinctIds (s : Store) : Prop :=
  (s.map (fun p => p.draft_id)).Nodup

/-- Target status written by each reviewer action in
`ApprovalView.handle_approval`. -/
def ApprovalAction.targetStatus : ApprovalAction → PostStatus
  | .approved => .APPROVED_FOR_SOCIALS
  | .rejected => .DECLINED
  | .edit_requested => .PENDING

/-- Invariant of §3 of the spec, forward direction: a `posted` row carries an
external post id. -/
def publishedLink (s : Store) : Prop :=
  ∀ p ∈ s, p.status = PostStatus.POSTED.value → p.linkedin_post_id ≠ none

/-- Concrete environment with configured credentials, for the scenario runs. -/
def cexEnv : Env := { access_token := some "tok", person_id := some "pid" }

/-- A freshly created pending draft, as produced by `Database.create_post`. -/
def sampleDraft : LinkedInDraft :=
  (Database.create_post [] "Hello world" "d1" 0).1

/-- The sample draft after surfacing recorded its Discord message. -/
def sampleSurfaced : LinkedInDraft :=
  { sampleDraft with discord_message_id := some "m1",
                     discord_channel_id := some "ch1" }

/-- The sample draft in approved state. -/
def sampleApproved : LinkedInDraft :=
  { sampleDraft with status := PostStatus.APPROVED_FOR_SOCIALS.value }

/-- An approved draft whose content is 3500 characters, for Scenario C. -/
def sampleLong : LinkedInDraft :=
  { sampleApproved with post := some (String.mk (List.replicate 3500 'a')) }

/-- Scenario store after intake: one pending draft. -/
def cexS1 : Store := applyOp cexEnv [] 0 (.createOp "Hello world" "d1")

/-- Scenario store after `decide(d1, approve, alice)`. -/
def cexS2 : Store := applyOp cexEnv cexS1 1 (.decideOp "d1" .approved "alice")

/-- Scenario store after a successful publish attempt returning `"X123"`. -/
def cexS3 : Store := applyOp cexEnv cexS2 2 (.publishOp "d1" (.created201 "X123"))

/-- Scenario store after a late `decide(d1, decline, bob)` on the published
row. -/
def cexS4 : Store := applyOp cexEnv cexS3 3 (.decideOp "d1" .rejected "bob")

/-- The published row of `cexS3`, spelled out. -/
def cexPosted : LinkedInDraft :=
  { sampleDraft with status := PostStatus.POSTED.value,
                     approved_at := some 1, discord_approver := some "alice",
                     posted_at := some 2, linkedin_post_id := some "X123" }

theorem updateFirst_of_none {s : Store} {id : String}
    {f : LinkedInDraft → LinkedInDraft} (h : findDraft s id = none) :
    updateFirst s id f = (none, s) := by
  induction s with
  | nil => rfl
  | cons a rest ih =>
    by_cases ha : a.draft_id = id
    · simp [findDraft, List.find?_cons, ha] at h
    · have h' : findDraft rest id = none := by
        simpa [findDraft, List.find?_cons, ha] using h
      simp [updateFirst, ha, ih h']

theorem updateFirst_fst {s : Store} {id : String} {p : LinkedInDraft}
    {f : LinkedInDraft → LinkedInDraft} (h : findDraft s id = some p) :
    (updateFirst s id f).1 = some (f p) := by
  induction s with
  | nil => simp [findDraft] at h
  | cons a rest ih =>
    by_cases ha : a.draft_id = id
    · have hap : a = p := by simpa [findDraft, List.find?_cons, ha] using h
      subst hap
      simp [updateFirst, ha]
    · have h' : findDraft rest id = some p := by
        simpa [findDraft, List.find?_cons, ha] using h
      simp [updateFirst, ha, ih h']

theorem findDraft_updateFirst_self {s : Store} {tid : String}
    {f : LinkedInDraft → LinkedInDraft} (hf : ∀ x, (f x).draft_id = x.draft_id) :
    findDraft (updateFirst s tid f).2 tid = (findDraft s tid).map f := by
  induction s with
  | nil => simp [updateFirst, findDraft]
  | cons a rest ih =>
    by_cases ha : a.draft_id = tid
    · have hb : ((f a).draft_id == tid) = true := by simp [hf, ha]
      have hb' : (a.draft_id == tid) = true := by simp [ha]
      simp [updateFirst, findDraft, List.find?_cons, hb, hb']
    · have hb : (a.draft_id == tid) = false := by simp [ha]
      simp only [updateFirst, hb, Bool.false_eq_true, if_false]
      simp only [findDraft] at ih ⊢
      simp [List.find?_cons, hb, ih]

theorem findDraft_updateFirst_other {s : Store} {tid : String}
    {f : LinkedInDraft → LinkedInDraft} (hf : ∀ x, (f x).draft_id = x.draft_id)
    {id : String} (hti : tid ≠ id) :
    findDraft (updateFirst s tid f).2 id = findDraft s id := by
  induction s with
  | nil => simp [updateFirst]
  | cons a rest ih =>
    by_cases ha : a.draft_id = tid
    · have hai : a.draft_id ≠ id := fun e => hti (ha.symm.trans e)
      have hb : (a.draft_id == tid) = true := by simp [ha]
      have hb1 : ((f a).draft_id == id) = false := by simp [hf, hai]
      have hb2 : (a.draft_id == id) = false := by simp [hai]
      simp [updateFirst, findDraft, List.find?_cons, hb, hb1, hb2]
    · have hb : (a.draft_id == tid) = false := by simp [ha]
      simp only [updateFirst, hb, Bool.false_eq_true, if_false]
      simp only [findDraft] at ih ⊢
      by_cases hai : a.draft_id = id
      · have hb2 : (a.draft_id == id) = true := by simp [hai]
        simp [List.find?_cons, hb2]
      · have hb2 : (a.draft_id == id) = false := by simp [hai]
        simp [List.find?_cons, hb2, ih]

theorem findDraft_updateFirst_point {s : Store} {tid : String}
    {f : LinkedInDraft → LinkedInDraft} (hf : ∀ x, (f x).draft_id = x.draft_id)
    {id : String} {p q : LinkedInDraft}
    (hp : findDraft s id = some p)
    (hq : findDraft (updateFirst s tid f).2 id = some q) :
    (tid = id ∧ q = f p) ∨ q = p := by
  by_cases h : tid = id
  · subst h
    rw [findDraft_updateFirst_self hf, hp] at hq
    exact Or.inl ⟨rfl, (Option.some.inj hq).symm⟩
  · rw [findDraft_updateFirst_other hf h, hp] at hq
    exact Or.inr (Option.some.inj hq).symm

theorem findDraft_eq_of_mem {s : Store} {p : LinkedInDraft}
    (hnd : distinctIds s) (hmem : p ∈ s) : findDraft s p.draft_id = some p := by
  induction s with
  | nil => cases hmem
  | cons a rest ih =>
    have hnd' := List.nodup_cons.mp hnd
    rcases List.mem_cons.mp hmem with rfl | hmem'
    · simp [findDraft, List.find?_cons]
    · have h1 : a.draft_id ∉ rest.map (fun x => x.draft_id) := hnd'.1
      have hne : a.draft_id ≠ p.draft_id := by
        intro e
        exact h1 (by rw [e]; exact List.mem_map_of_mem _ hmem')
      simp [findDraft, List.find?_cons, hne]
      exact ih hnd'.2 hmem'

theorem mem_updateFirst_snd {s : Store} {tid : String}
    {f : LinkedInDraft → LinkedInDraft} {q : LinkedInDraft}
    (hnd : distinctIds s)
    (h : q ∈ (updateFirst s tid f).2) :
    (q ∈ s ∧ q.draft_id ≠ tid) ∨ ∃ x, x ∈ s ∧ x.draft_id = tid ∧ q = f x := by
  induction s with
  | nil => simp [updateFirst] at h
  | cons a rest ih =>
    have hnd' := List.nodup_cons.mp hnd
    by_cases ha : a.draft_id = tid
    · simp only [updateFirst, beq_iff_eq, ha, if_true] at h
      rcases List.mem_cons.mp h with rfl | hq'
      · exact Or.inr ⟨a, List.mem_cons_self _ _, ha, rfl⟩
      · have h1 : a.draft_id ∉ rest.map (fun x => x.draft_id) := hnd'.1
        refine Or.inl ⟨List.mem_cons_of_mem _ hq', ?_⟩
        intro e
        exact h1 (by rw [ha, ← e]; exact List.mem_map_of_mem _ hq')
    · simp only [updateFirst, beq_iff_eq, ha, if_false] at h
      rcases List.mem_cons.mp h with rfl | hq'
      · exact Or.inl ⟨List.mem_cons_self _ _, ha⟩
      · rcases ih hnd'.2 hq' with ⟨hm, hne⟩ | ⟨x, hx, hxt, hqx⟩
        · exact Or.inl ⟨List.mem_cons_of_mem _ hm, hne⟩
        · exact Or.inr ⟨x, List.mem_cons_of_mem _ hx, hxt, hqx⟩

theorem mem_get_pending {s : Store} {q : LinkedInDraft} :
    q ∈ Database.get_pending_posts s ↔
      q ∈ s ∧ q.status = PostStatus.PENDING.value ∧ q.discord_message_id = none := by
  simp [Database.get_pending_posts, List.mem_filter, Option.isNone_iff_eq_none,
    and_assoc]

theorem mem_get_approved {s : Store} {q : LinkedInDraft} :
    q ∈ Database.get_approved_posts s ↔
      q ∈ s ∧ q.status = PostStatus.APPROVED_FOR_SOCIALS.value ∧
        q.linkedin_post_id = none := by
  simp [Database.get_approved_posts, List.mem_filter, Option.isNone_iff_eq_none,
    and_assoc]

theorem find?_draft_spec {l : List LinkedInDraft} {id : String}
    {sel : LinkedInDraft}
    (h : l.find? (fun p => p.draft_id == id) = some sel) :
    sel ∈ l ∧ sel.draft_id = id :=
  ⟨List.mem_of_find?_eq_some h, by simpa using List.find?_some h⟩

theorem joinSep_concat (sep m : String) :
    ∀ l : List String, ∃ pre, joinSep sep (l ++ [m]) = pre ++ m
  | [] => ⟨"", by simp [joinSep]⟩
  | [a] => ⟨a ++ sep, rfl⟩
  | a :: b :: t => by
    obtain ⟨pre, hp⟩ := joinSep_concat sep m (b :: t)
    refine ⟨a ++ sep ++ pre, ?_⟩
    show a ++ sep ++ joinSep sep ((b :: t) ++ [m]) = a ++ sep ++ pre ++ m
    rw [hp, ← String.append_assoc]

theorem validate_post_limit {tok pid : Option String} {p : LinkedInDraft}
    {c : String} (hc : p.post = some c) (hlen : c.length > 3000) :
    ∃ l, LinkedInPublisher.validate_post tok pid p =
      l ++ ["Post content exceeds LinkedIn\x27s 3000 character limit"] := by
  refine ⟨(if !pyTruthyOptStr tok then ["LinkedIn access token not configured"]
      else [])
    ++ (if !pyTruthyOptStr pid then ["LinkedIn person ID not configured"]
      else [])
    ++ (if !pyTruthyOptStr p.post || (pyStrip (p.post.getD "")).isEmpty then
      ["Post content is empty"] else []), ?_⟩
  unfold LinkedInPublisher.validate_post
  rw [hc]
  simp only [Option.getD_some]
  rw [if_pos hlen]

theorem publish_post_of_validate_fail {tok pid : Option String} {store : Store}
    {post : LinkedInDraft} {resp : HttpOutcome} {now : Nat}
    (hv : LinkedInPublisher.validate_post tok pid post ≠ []) :
    LinkedInPublisher.publish_post tok pid store post resp now =
      ({ success := false, linkedin_post_id := none, linkedin_url := none,
         error := some ("Error publishing post " ++ post.draft_id ++
           ": Post validation failed: " ++
           joinSep "; " (LinkedInPublisher.validate_post tok pid post)) },
       (updateFirst store post.draft_id
         (applyUpdate PostStatus.DECLINED
           [("last_error", .vstr ("Error publishing post " ++ post.draft_id ++
              ": Post validation failed: " ++
              joinSep "; " (LinkedInPublisher.validate_post tok pid post))),
            ("retry_count", .vint (post.retry_count + 1))] now)).2) := by
  unfold LinkedInPublisher.publish_post Database.update_post_status
  simp only [if_pos hv]

theorem publish_post_of_created {tok pid : Option String} {store : Store}
    {post : LinkedInDraft} {X : String} {now : Nat}
    (hv : LinkedInPublisher.validate_post tok pid post = []) :
    LinkedInPublisher.publish_post tok pid store post (.created201 X) now =
      ({ success := true, linkedin_post_id := some X,
         linkedin_url := LinkedInPublisher.generate_post_url (some X),
         error := none },
       (updateFirst store post.draft_id
         (applyUpdate PostStatus.POSTED
           [("linkedin_post_id", .vstr X),
            ("linkedin_url",
              optStrToPyValue (LinkedInPublisher.generate_post_url (some X)))]
           now)).2) := by
  unfold LinkedInPublisher.publish_post Database.update_post_status
  simp only [hv, ne_eq, not_true_eq_false, if_false]

theorem publish_post_of_httpError {tok pid : Option String} {store : Store}
    {post : LinkedInDraft} {code : Nat} {text : String} {now : Nat}
    (hv : LinkedInPublisher.validate_post tok pid post = []) :
    LinkedInPublisher.publish_post tok pid store post (.httpError code text) now =
      ({ success := false, linkedin_post_id := none, linkedin_url := none,
         error := some ("LinkedIn API error: " ++ toString code ++ " - " ++ text) },
       (updateFirst store post.draft_id
         (applyUpdate PostStatus.DECLINED
           [("last_error",
              .vstr ("LinkedIn API error: " ++ toString code ++ " - " ++ text)),
            ("retry_count", .vint (post.retry_count + 1))] now)).2) := by
  unfold LinkedInPublisher.publish_post Database.update_post_status
  simp only [hv, ne_eq, not_true_eq_false, if_false]

theorem publish_post_of_netError {tok pid : Option String} {store : Store}
    {post : LinkedInDraft} {msg : String} {now : Nat}
    (hv : LinkedInPublisher.validate_post tok pid post = []) :
    LinkedInPublisher.publish_post tok pid store post (.netError msg) now =
      ({ success := false, linkedin_post_id := none, linkedin_url := none,
         error := some ("Error publishing post " ++ post.draft_id ++ ": " ++ msg) },
       (updateFirst store post.draft_id
         (applyUpdate PostStatus.DECLINED
           [("last_error",
              .vstr ("Error publishing post " ++ post.draft_id ++ ": " ++ msg)),
            ("retry_count", .vint (post.retry_count + 1))] now)).2) := by
  unfold LinkedInPublisher.publish_post Database.update_post_status
  simp only [hv, ne_eq, not_true_eq_false, if_false]

theorem applyUpdate_approve_eq (user : String) (now : Nat) (p : LinkedInDraft) :
    applyUpdate PostStatus.APPROVED_FOR_SOCIALS
      [("discord_approver", .vstr user)] now p =
      { p with status := PostStatus.APPROVED_FOR_SOCIALS.value,
               approved_at := some now, discord_approver := some user } := rfl

theorem applyUpdate_reject_eq (user : String) (now : Nat) (p : LinkedInDraft) :
    applyUpdate PostStatus.DECLINED
      [("discord_approver", .vstr user),
       ("last_error", .vstr "Rejected via Discord button")] now p =
      { p with status := PostStatus.DECLINED.value,
               discord_approver := some user,
               last_error := some "Rejected via Discord button" } := rfl

theorem applyUpdate_edit_eq (user : String) (now : Nat) (p : LinkedInDraft) :
    applyUpdate PostStatus.PENDING
      [("discord_approver", .vstr user),
       ("last_error", .vstr "Edit requested via Discord button")] now p =
      { p with status := PostStatus.PENDING.value,
               discord_approver := some user,
               last_error := some "Edit requested via Discord button" } := rfl

theorem applyUpdate_surface_eq (m c : String) (now : Nat) (p : LinkedInDraft) :
    applyUpdate PostStatus.PENDING
      [("discord_message_id", .vstr m), ("discord_channel_id", .vstr c)]
      now p =
      { p with status := PostStatus.PENDING.value,
               discord_message_id := some m,
               discord_channel_id := some c } := rfl

theorem applyUpdate_fail_eq (e : String) (r now : Nat) (p : LinkedInDraft) :
    applyUpdate PostStatus.DECLINED
      [("last_error", .vstr e), ("retry_count", .vint r)] now p =
      { p with status := PostStatus.DECLINED.value, last_error := some e,
               retry_count := r } := rfl

theorem applyUpdate_posted_eq (x : String) (v : PyValue) (now : Nat)
    (p : LinkedInDraft) :
    applyUpdate PostStatus.POSTED
      [("linkedin_post_id", .vstr x), ("linkedin_url", v)] now p =
      { p with status := PostStatus.POSTED.value, posted_at := some now,
               linkedin_post_id := some x } := rfl

theorem hf_approve (user : String) (now : Nat) :
    ∀ x : LinkedInDraft,
      (applyUpdate PostStatus.APPROVED_FOR_SOCIALS
        [("discord_approver", .vstr user)] now x).draft_id = x.draft_id :=
  fun _ => rfl

theorem hf_reject (user : String) (now : Nat) :
    ∀ x : LinkedInDraft,
      (applyUpdate PostStatus.DECLINED
        [("discord_approver", .vstr user),
         ("last_error", .vstr "Rejected via Discord button")] now x).draft_id =
      x.draft_id :=
  fun _ => rfl

theorem hf_edit (user : String) (now : Nat) :
    ∀ x : LinkedInDraft,
      (applyUpdate PostStatus.PENDING
        [("discord_approver", .vstr user),
         ("last_error", .vstr "Edit requested via Discord button")]
        now x).draft_id = x.draft_id :=
  fun _ => rfl

theorem hf_surface (m c : String) (now : Nat) :
    ∀ x : LinkedInDraft,
      (applyUpdate PostStatus.PENDING
        [("discord_message_id", .vstr m), ("discord_channel_id", .vstr c)]
        now x).draft_id = x.draft_id :=
  fun _ => rfl

theorem hf_fail (e : String) (r now : Nat) :
    ∀ x : LinkedInDraft,
      (applyUpdate PostStatus.DECLINED
        [("last_error", .vstr e), ("retry_count", .vint r)] now x).draft_id =
      x.draft_id :=
  fun _ => rfl

theorem hf_posted (x : String) (v : PyValue) (now : Nat) :
    ∀ y : LinkedInDraft,
      (applyUpdate PostStatus.POSTED
        [("linkedin_post_id", .vstr x), ("linkedin_url", v)] now y).draft_id =
      y.draft_id :=
  fun _ => rfl

theorem start_monitoring_not_running (l : List CycleInput) :
    DatabaseMonitor.start_monitoring false l = .stopped 0 := by
  cases l <;> simp [DatabaseMonitor.start_monitoring]

/-- Claim C10: in `Database.update_post_status`, a keyword whose name is not
an attribute of the draft record is silently discarded by the
attribute-existence guard, and an update changes nothing beyond the status,
the status-derived timestamp and the recognised keywords; in particular the
`linkedin_url` value passed on a successful publish names no column of the
record and is never persisted. -/
theorem claim_C10_unknown_kwargs_discarded :
    (∀ (p : LinkedInDraft) (k : String) (v : PyValue),
      hasattrLinkedInDraft k = false → applyKwarg p (k, v) = p) ∧
    hasattrLinkedInDraft "linkedin_url" = false ∧
    (∀ (p : LinkedInDraft) (x : String) (v : PyValue) (now : Nat),
      applyUpdate PostStatus.POSTED
        [("linkedin_post_id", .vstr x), ("linkedin_url", v)] now p =
        { p with status := PostStatus.POSTED.value, posted_at := some now,
                 linkedin_post_id := some x }) := by
  refine ⟨?_, rfl, ?_⟩
  · intro p k v h
    simp [applyKwarg, h]
  · intro p x v now
    rfl

/-- Witness for C10: the `linkedin_url` keyword of the publish-success call is
dropped on a concrete record. -/
theorem claim_C10_witness :
    hasattrLinkedInDraft "linkedin_url" = false ∧
    applyKwarg sampleDraft ("linkedin_url", .vstr "https://example") =
      sampleDraft :=
  ⟨rfl, claim_C10_unknown_kwargs_discarded.1 sampleDraft "linkedin_url"
    (.vstr "https://example") rfl⟩

/-- Claim C4: a reviewer decision for a submission id that has no row returns
the not-found outcome (`None`, the value `update_post_status` yields when its
query finds nothing) and returns the store exactly as it was — no record is
created or mutated. -/
theorem claim_C4_decide_not_found (store : Store) (draft_id : String)
    (action : ApprovalAction) (user : String) (now : Nat)
    (h : findDraft store draft_id = none) :
    ApprovalView.handle_approval store draft_id action user now =
      (none, store) := by
  cases action <;>
    simp [ApprovalView.handle_approval, Database.update_post_status,
      updateFirst_of_none h]

/-- Witness for C4 on a concrete store and missing id. -/
theorem claim_C4_witness :
    findDraft [sampleDraft] "missing" = none ∧
    ApprovalView.handle_approval [sampleDraft] "missing" .rejected "bob" 5 =
      (none, [sampleDraft]) :=
  ⟨rfl, claim_C4_decide_not_found [sampleDraft] "missing" .rejected "bob" 5 rfl⟩

/-- Claim C1 (amended): the approval gateway performs no status-precondition
check.  Whenever the id resolves to a row — of any current status — a
reviewer decision is applied unconditionally: it returns the updated row
(never an `InvalidTransition` error) and overwrites the stored status with
the action's target status. -/
theorem claim_C1_decide_unconditional (store : Store) (draft_id : String)
    (p : LinkedInDraft) (action : ApprovalAction) (user : String) (now : Nat)
    (h : findDraft store draft_id = some p) :
    ∃ q, (ApprovalView.handle_approval store draft_id action user now).1 =
        some q ∧
      q.status = action.targetStatus.value ∧
      findDraft (ApprovalView.handle_approval store draft_id action user now).2
        draft_id = some q := by
  cases action with
  | approved =>
    refine ⟨_, updateFirst_fst h, rfl, ?_⟩
    show findDraft (updateFirst store draft_id _).2 draft_id = _
    rw [findDraft_updateFirst_self (hf_approve user now), h]
    rfl
  | rejected =>
    refine ⟨_, updateFirst_fst h, rfl, ?_⟩
    show findDraft (updateFirst store draft_id _).2 draft_id = _
    rw [findDraft_updateFirst_self (hf_reject user now), h]
    rfl
  | edit_requested =>
    refine ⟨_, updateFirst_fst h, rfl, ?_⟩
    show findDraft (updateFirst store draft_id _).2 draft_id = _
    rw [findDraft_updateFirst_self (hf_edit user now), h]
    rfl

/-- Counterexample to C1 as stated: after `decide(d1, approve, alice)` the
row is `approved_for_socials`, yet a second `decide(d1, decline, bob)` is not
rejected with `InvalidTransition` — it returns the mutated row and the status
does not remain `approved_for_socials` but becomes `declined`. -/
theorem claim_C1_counterexample :
    ((findDraft cexS2 "d1").map (fun p => p.status) =
      some PostStatus.APPROVED_FOR_SOCIALS.value) ∧
    ((ApprovalView.handle_approval cexS2 "d1" .rejected "bob" 2).1.map
      (fun p => p.status) = some PostStatus.DECLINED.value) ∧
    ((findDraft (ApprovalView.handle_approval cexS2 "d1" .rejected "bob" 2).2
      "d1").map (fun p => p.status) = some PostStatus.DECLINED.value) :=
  ⟨rfl, rfl, rfl⟩

/-- Witness for the amended C1 on the concrete second decision: the decline
by bob on the already-approved row succeeds and lands on `declined`. -/
theorem claim_C1_witness :
    findDraft cexS2 "d1" =
      some (applyUpdate PostStatus.APPROVED_FOR_SOCIALS
        [("discord_approver", .vstr "alice")] 1 sampleDraft) ∧
    ∃ q, (ApprovalView.handle_approval cexS2 "d1" .rejected "bob" 2).1 =
        some q ∧
      q.status = ApprovalAction.rejected.targetStatus.value ∧
      findDraft (ApprovalView.handle_approval cexS2 "d1" .rejected "bob" 2).2
        "d1" = some q :=
  ⟨rfl, claim_C1_decide_unconditional cexS2 "d1" _ .rejected "bob" 2 rfl⟩

/-- Claim C8: the reconciliation loop of `db_monitor.py` never terminates
because of a processing error — against any schedule of erroring cycles with
no stop request it is still running after every cycle; a stop requested
during cycle `k` lets cycle `k` complete and is observed at the next
between-cycles check, so exactly `k + 1` cycles run; and a caught error is
followed by the short fixed 10 second backoff rather than termination. -/
theorem claim_C8_loop_resilient :
    (∀ inputs : List CycleInput, (∀ i ∈ inputs, i.stopDuring = false) →
      DatabaseMonitor.start_monitoring true inputs =
        .stillRunning inputs.length) ∧
    (∀ (pre : List CycleInput) (inp : CycleInput) (post : List CycleInput),
      (∀ i ∈ pre, i.stopDuring = false) → inp.stopDuring = true →
      DatabaseMonitor.start_monitoring true (pre ++ inp :: post) =
        .stopped (pre.length + 1)) ∧
    (∀ (n : Nat) (inp : CycleInput), inp.cycleError = true →
      DatabaseMonitor.cycle_backoff n inp = 10) := by
  refine ⟨?_, ?_, ?_⟩
  · intro inputs h
    induction inputs with
    | nil => rfl
    | cons i rest ih =>
      have hi : i.stopDuring = false := h i (List.mem_cons_self _ _)
      have hrest : ∀ j ∈ rest, j.stopDuring = false :=
        fun j hj => h j (List.mem_cons_of_mem _ hj)
      simp [DatabaseMonitor.start_monitoring, hi, ih hrest]
  · intro pre inp post hpre hinp
    induction pre with
    | nil =>
      simp [DatabaseMonitor.start_monitoring, hinp,
        start_monitoring_not_running]
    | cons a pre' ih =>
      have ha : a.stopDuring = false := hpre a (List.mem_cons_self _ _)
      have hpre' : ∀ j ∈ pre', j.stopDuring = false :=
        fun j hj => hpre j (List.mem_cons_of_mem _ hj)
      simp [DatabaseMonitor.start_monitoring, ha, ih hpre']
  · intro n inp h
    simp [DatabaseMonitor.cycle_backoff, h]

/-- Witness for C8: two erroring cycles keep the loop alive; a stop request
during the second of three cycles stops the loop after exactly two completed
cycles; an erroring cycle backs off 10 seconds. -/
theorem claim_C8_witness :
    DatabaseMonitor.start_monitoring true
      [⟨true, false⟩, ⟨true, false⟩] = .stillRunning 2 ∧
    DatabaseMonitor.start_monitoring true
      [⟨true, false⟩, ⟨false, true⟩, ⟨false, false⟩] = .stopped 2 ∧
    DatabaseMonitor.cycle_backoff 30 ⟨true, false⟩ = 10 :=
  ⟨claim_C8_loop_resilient.1 _ (by decide),
   claim_C8_loop_resilient.2.1 [⟨true, false⟩] ⟨false, true⟩ [⟨false, false⟩]
     (by decide) rfl,
   claim_C8_loop_resilient.2.2 30 ⟨true, false⟩ rfl⟩

theorem hr_approve (user : String) (now : Nat) :
    ∀ x : LinkedInDraft,
      (applyUpdate PostStatus.APPROVED_FOR_SOCIALS
        [("discord_approver", .vstr user)] now x).retry_count = x.retry_count :=
  fun _ => rfl

theorem hr_reject (user : String) (now : Nat) :
    ∀ x : LinkedInDraft,
      (applyUpdate PostStatus.DECLINED
        [("discord_approver", .vstr user),
         ("last_error", .vstr "Rejected via Discord button")]
        now x).retry_count = x.retry_count :=
  fun _ => rfl

theorem hr_edit (user : String) (now : Nat) :
    ∀ x : LinkedInDraft,
      (applyUpdate PostStatus.PENDING
        [("discord_approver", .vstr user),
         ("last_error", .vstr "Edit requested via Discord button")]
        now x).retry_count = x.retry_count :=
  fun _ => rfl

theorem hr_surface (m c : String) (now : Nat) :
    ∀ x : LinkedInDraft,
      (applyUpdate PostStatus.PENDING
        [("discord_message_id", .vstr m), ("discord_channel_id", .vstr c)]
        now x).retry_count = x.retry_count :=
  fun _ => rfl

theorem hr_posted (x : String) (v : PyValue) (now : Nat) :
    ∀ y : LinkedInDraft,
      (applyUpdate PostStatus.POSTED
        [("linkedin_post_id", .vstr x), ("linkedin_url", v)] now y).retry_count =
      y.retry_count :=
  fun _ => rfl

theorem retry_eq_point {store : Store} {tid : String}
    {f : LinkedInDraft → LinkedInDraft}
    (hf : ∀ x, (f x).draft_id = x.draft_id)
    (hr : ∀ x, (f x).retry_count = x.retry_count)
    {id : String} {p q : LinkedInDraft}
    (hp : findDraft store id = some p)
    (hq : findDraft (updateFirst store tid f).2 id = some q) :
    q.retry_count = p.retry_count := by
  rcases findDraft_updateFirst_point hf hp hq with ⟨_, rfl⟩ | rfl
  · exact hr p
  · rfl

theorem mem_updateFirst_weak {s : Store} {tid : String}
    {f : LinkedInDraft → LinkedInDraft} {q : LinkedInDraft}
    (h : q ∈ (updateFirst s tid f).2) :
    q ∈ s ∨ ∃ x, x ∈ s ∧ q = f x := by
  induction s with
  | nil => simp [updateFirst] at h
  | cons a rest ih =>
    by_cases ha : a.draft_id = tid
    · have hb : (a.draft_id == tid) = true := by simp [ha]
      simp only [updateFirst, hb, if_true] at h
      rcases List.mem_cons.mp h with rfl | hq'
      · exact Or.inr ⟨a, List.mem_cons_self _ _, rfl⟩
      · exact Or.inl (List.mem_cons_of_mem _ hq')
    · have hb : (a.draft_id == tid) = false := by simp [ha]
      simp only [updateFirst, hb, Bool.false_eq_true, if_false] at h
      rcases List.mem_cons.mp h with rfl | hq'
      · exact Or.inl (List.mem_cons_self _ _)
      · rcases ih hq' with hm | ⟨x, hx, hqx⟩
        · exact Or.inl (List.mem_cons_of_mem _ hm)
        · exact Or.inr ⟨x, List.mem_cons_of_mem _ hx, hqx⟩

/-- Claim C2: a publish attempt on a stored row whose content exceeds the
3000 character platform limit yields a failure outcome: the row becomes
`declined`, the retry counter is incremented from 0 to 1, and the recorded
last-error ends with the character-limit message. -/
theorem claim_C2_over_limit_publish_fails (tok pid : Option String)
    (store : Store) (p : LinkedInDraft) (c : String) (resp : HttpOutcome)
    (now : Nat)
    (hfind : findDraft store p.draft_id = some p)
    (hpost : p.post = some c) (hlen : c.length > 3000)
    (hretry : p.retry_count = 0) :
    (LinkedInPublisher.publish_post tok pid store p resp now).1.success =
      false ∧
    ∃ q, findDraft
        (LinkedInPublisher.publish_post tok pid store p resp now).2
        p.draft_id = some q ∧
      q.status = PostStatus.DECLINED.value ∧ q.retry_count = 1 ∧
      ∃ e pre, q.last_error = some e ∧
        e = pre ++ "Post content exceeds LinkedIn\x27s 3000 character limit" := by
  obtain ⟨l, hval⟩ := validate_post_limit hpost hlen
  have hne : LinkedInPublisher.validate_post tok pid p ≠ [] := by
    rw [hval]; simp
  rw [publish_post_of_validate_fail hne]
  refine ⟨rfl, ?_⟩
  obtain ⟨pre0, hpre0⟩ := joinSep_concat ";\x20"
    "Post content exceeds LinkedIn\x27s 3000 character limit" l
  rw [findDraft_updateFirst_self (hf_fail _ _ _), hfind, Option.map_some',
    applyUpdate_fail_eq]
  refine ⟨_, rfl, rfl, ?_, ?_⟩
  · show p.retry_count + 1 = 1
    rw [hretry]
  · refine ⟨_, ("Error publishing post " ++ p.draft_id ++
      ": Post validation failed: ") ++ pre0, rfl, ?_⟩
    rw [hval, hpre0, ← String.append_assoc]

/-- Counterexample to C3 as stated: on a successful publish returning
external id `"X123"` no canonical URL is derived or recorded — the URL
generator yields `None` for an id not in `urn:li:share:` URN format, and the
`linkedin_url` keyword names no column of the record, so nothing is
persisted. -/
theorem claim_C3_counterexample :
    LinkedInPublisher.generate_post_url (some "X123") = none ∧
    (LinkedInPublisher.publish_post (some "tok") (some "pid") [sampleApproved]
      sampleApproved (.created201 "X123") 2).1.linkedin_url = none ∧
    hasattrLinkedInDraft "linkedin_url" = false :=
  ⟨rfl, by decide, rfl⟩

/-- Claim C3 (amended): a successful publish attempt returning external id
`X` sets the row's status to `posted`, persists `linkedin_post_id = X`, and
leaves the retry counter unchanged; the returned result carries the URL
computed by `generate_post_url` (which is `None` for a non-URN id such as
`"X123"`), and no URL is persisted on the row because `linkedin_url` is not
one of its columns. -/
theorem claim_C3_publish_success (tok pid : Option String) (store : Store)
    (p : LinkedInDraft) (X : String) (now : Nat)
    (hfind : findDraft store p.draft_id = some p)
    (hval : LinkedInPublisher.validate_post tok pid p = []) :
    (LinkedInPublisher.publish_post tok pid store p (.created201 X)
      now).1.success = true ∧
    (LinkedInPublisher.publish_post tok pid store p (.created201 X)
      now).1.linkedin_post_id = some X ∧
    (LinkedInPublisher.publish_post tok pid store p (.created201 X)
      now).1.linkedin_url = LinkedInPublisher.generate_post_url (some X) ∧
    hasattrLinkedInDraft "linkedin_url" = false ∧
    findDraft (LinkedInPublisher.publish_post tok pid store p (.created201 X)
        now).2 p.draft_id =
      some { p with status := PostStatus.POSTED.value, posted_at := some now,
                    linkedin_post_id := some X } ∧
    ({ p with status := PostStatus.POSTED.value, posted_at := some now,
              linkedin_post_id := some X } : LinkedInDraft).retry_count =
      p.retry_count := by
  rw [publish_post_of_created hval]
  refine ⟨rfl, rfl, rfl, rfl, ?_, rfl⟩
  rw [findDraft_updateFirst_self (hf_posted _ _ _), hfind, Option.map_some',
    applyUpdate_posted_eq]

/-- Claim C5: surfacing is idempotent through the thread-reference gate — the
pending scan only selects rows whose Discord message reference is unset;
surfacing writes the reference without changing the status; and after one
surfacing the row is no longer selected, so a second pass sends no further
notification for it. -/
theorem claim_C5_surface_idempotent (store : Store) (p : LinkedInDraft)
    (m c : String) (now : Nat)
    (hnd : distinctIds store)
    (hfind : findDraft store p.draft_id = some p)
    (hpend : p.status = PostStatus.PENDING.value)
    (hmsg : p.discord_message_id = none) :
    (∀ q ∈ Database.get_pending_posts store, q.discord_message_id = none) ∧
    findDraft (LinkedInBot.send_approval_request store p m c now) p.draft_id =
      some { p with status := PostStatus.PENDING.value,
                    discord_message_id := some m,
                    discord_channel_id := some c } ∧
    ({ p with status := PostStatus.PENDING.value,
              discord_message_id := some m,
              discord_channel_id := some c } : LinkedInDraft).status =
      p.status ∧
    (∀ q ∈ Database.get_pending_posts
        (LinkedInBot.send_approval_request store p m c now),
      q.draft_id ≠ p.draft_id) := by
  refine ⟨?_, ?_, hpend.symm, ?_⟩
  · intro q hq
    exact (mem_get_pending.mp hq).2.2
  · show findDraft (updateFirst store p.draft_id _).2 p.draft_id = _
    rw [findDraft_updateFirst_self (hf_surface m c now), hfind,
      Option.map_some', applyUpdate_surface_eq]
  · intro q hq hqid
    have hmem := mem_get_pending.mp hq
    have h2 := mem_updateFirst_snd hnd
      (show q ∈ (updateFirst store p.draft_id
        (applyUpdate PostStatus.PENDING
          [("discord_message_id", .vstr m), ("discord_channel_id", .vstr c)]
          now)).2 from hmem.1)
    rcases h2 with ⟨_, hne⟩ | ⟨x, hx, hxt, hqx⟩
    · exact hne hqid
    · have hfs : findDraft store p.draft_id = some x := by
        rw [← hxt]; exact findDraft_eq_of_mem hnd hx
      rw [hfind] at hfs
      have hxp : x = p := (Option.some.inj hfs).symm
      subst hxp
      have hq2 := hmem.2.2
      rw [hqx, applyUpdate_surface_eq] at hq2
      simp at hq2

/-- Claim C9: a RequestEdit decision on a surfaced pending submission keeps
the status `pending`, records the reviewer identity and the edit-request
reason in `last_error`, leaves the non-null Discord message reference
untouched, and the row is not selected again by the pending-surface scan. -/
theorem claim_C9_request_edit (store : Store) (p : LinkedInDraft)
    (user m : String) (now : Nat)
    (hnd : distinctIds store)
    (hfind : findDraft store p.draft_id = some p)
    (hpend : p.status = PostStatus.PENDING.value)
    (hmsg : p.discord_message_id = some m) :
    (ApprovalView.handle_approval store p.draft_id .edit_requested user
      now).1 =
      some { p with status := PostStatus.PENDING.value,
                    discord_approver := some user,
                    last_error := some "Edit requested via Discord button" } ∧
    findDraft (ApprovalView.handle_approval store p.draft_id .edit_requested
        user now).2 p.draft_id =
      some { p with status := PostStatus.PENDING.value,
                    discord_approver := some user,
                    last_error := some "Edit requested via Discord button" } ∧
    ({ p with status := PostStatus.PENDING.value,
              discord_approver := some user,
              last_error := some "Edit requested via Discord button" }
      : LinkedInDraft).status = p.status ∧
    ({ p with status := PostStatus.PENDING.value,
              discord_approver := some user,
              last_error := some "Edit requested via Discord button" }
      : LinkedInDraft).discord_message_id = some m ∧
    (∀ q ∈ Database.get_pending_posts
        (ApprovalView.handle_approval store p.draft_id .edit_requested user
          now).2,
      q.draft_id ≠ p.draft_id) := by
  refine ⟨?_, ?_, hpend.symm, hmsg, ?_⟩
  · show (updateFirst store p.draft_id _).1 = _
    rw [updateFirst_fst hfind, applyUpdate_edit_eq]
  · show findDraft (updateFirst store p.draft_id _).2 p.draft_id = _
    rw [findDraft_updateFirst_self (hf_edit user now), hfind,
      Option.map_some', applyUpdate_edit_eq]
  · intro q hq hqid
    have hmem := mem_get_pending.mp hq
    have h2 := mem_updateFirst_snd hnd
      (show q ∈ (updateFirst store p.draft_id
        (applyUpdate PostStatus.PENDING
          [("discord_approver", .vstr user),
           ("last_error", .vstr "Edit requested via Discord button")]
          now)).2 from hmem.1)
    rcases h2 with ⟨_, hne⟩ | ⟨x, hx, hxt, hqx⟩
    · exact hne hqid
    · have hfs : findDraft store p.draft_id = some x := by
        rw [← hxt]; exact findDraft_eq_of_mem hnd hx
      rw [hfind] at hfs
      have hxp : x = p := (Option.some.inj hfs).symm
      subst hxp
      have hq2 := hmem.2.2
      rw [hqx, applyUpdate_edit_eq] at hq2
      simp [hmsg] at hq2

theorem findDraft_append {s t : Store} {id : String} {p : LinkedInDraft}
    (hp : findDraft s id = some p) : findDraft (s ++ t) id = some p := by
  unfold findDraft at hp ⊢
  rw [List.find?_append, hp]
  rfl

theorem retry_le_fail_update {store : Store} {sel : LinkedInDraft} {e : String}
    {now : Nat} (hnd : distinctIds store) (hmem : sel ∈ store)
    {id : String} {p q : LinkedInDraft}
    (hp : findDraft store id = some p)
    (hq : findDraft (updateFirst store sel.draft_id
      (applyUpdate PostStatus.DECLINED
        [("last_error", .vstr e),
         ("retry_count", .vint (sel.retry_count + 1))] now)).2 id = some q) :
    p.retry_count ≤ q.retry_count := by
  rcases findDraft_updateFirst_point (hf_fail e (sel.retry_count + 1) now) hp hq
    with ⟨hid, rfl⟩ | rfl
  · have hfs : findDraft store id = some sel := by
      rw [← hid]; exact findDraft_eq_of_mem hnd hmem
    rw [hp] at hfs
    have hps : p = sel := Option.some.inj hfs
    show p.retry_count ≤ sel.retry_count + 1
    rw [hps]
    exact Nat.le_succ _
  · exact le_refl _

theorem retry_le_applyOp (env : Env) (store : Store) (now : Nat) (op : CoreOp)
    (hnd : distinctIds store) {id : String} {p q : LinkedInDraft}
    (hp : findDraft store id = some p)
    (hq : findDraft (applyOp env store now op) id = some q) :
    p.retry_count ≤ q.retry_count := by
  cases op with
  | createOp content did =>
    have hq' : findDraft (store ++ [(Database.create_post store content did
      now).1]) id = some q := hq
    rw [findDraft_append hp] at hq'
    cases Option.some.inj hq'
    exact le_refl _
  | surfaceOp did m c =>
    simp only [applyOp] at hq
    cases hsel : (Database.get_pending_posts store).find?
        (fun x => x.draft_id == did) with
    | none =>
      rw [hsel] at hq
      have hq' : findDraft store id = some q := hq
      rw [hp] at hq'
      cases Option.some.inj hq'
      exact le_refl _
    | some sel =>
      rw [hsel] at hq
      have hq' : findDraft (updateFirst store sel.draft_id
        (applyUpdate PostStatus.PENDING
          [("discord_message_id", .vstr m), ("discord_channel_id", .vstr c)]
          now)).2 id = some q := hq
      exact le_of_eq
        (retry_eq_point (hf_surface m c now) (hr_surface m c now) hp hq').symm
  | decideOp did a u =>
    cases a with
    | approved =>
      have hq' : findDraft (updateFirst store did
        (applyUpdate PostStatus.APPROVED_FOR_SOCIALS
          [("discord_approver", .vstr u)] now)).2 id = some q := hq
      exact le_of_eq
        (retry_eq_point (hf_approve u now) (hr_approve u now) hp hq').symm
    | rejected =>
      have hq' : findDraft (updateFirst store did
        (applyUpdate PostStatus.DECLINED
          [("discord_approver", .vstr u),
           ("last_error", .vstr "Rejected via Discord button")] now)).2 id =
        some q := hq
      exact le_of_eq
        (retry_eq_point (hf_reject u now) (hr_reject u now) hp hq').symm
    | edit_requested =>
      have hq' : findDraft (updateFirst store did
        (applyUpdate PostStatus.PENDING
          [("discord_approver", .vstr u),
           ("last_error", .vstr "Edit requested via Discord button")]
          now)).2 id = some q := hq
      exact le_of_eq
        (retry_eq_point (hf_edit u now) (hr_edit u now) hp hq').symm
  | publishOp did resp =>
    simp only [applyOp] at hq
    cases hsel : (Database.get_approved_posts store).find?
        (fun x => x.draft_id == did) with
    | none =>
      rw [hsel] at hq
      have hq' : findDraft store id = some q := hq
      rw [hp] at hq'
      cases Option.some.inj hq'
      exact le_refl _
    | some sel =>
      rw [hsel] at hq
      have hq' : findDraft (LinkedInPublisher.publish_post env.access_token
        env.person_id store sel resp now).2 id = some q := hq
      have hselm : sel ∈ store := (mem_get_approved.mp
        (find?_draft_spec hsel).1).1
      by_cases hv : LinkedInPublisher.validate_post env.access_token
          env.person_id sel = []
      · cases resp with
        | created201 X =>
          rw [publish_post_of_created hv] at hq'
          exact le_of_eq
            (retry_eq_point (hf_posted X _ now) (hr_posted X _ now) hp
              hq').symm
        | httpError code text =>
          rw [publish_post_of_httpError hv] at hq'
          exact retry_le_fail_update hnd hselm hp hq'
        | netError msg =>
          rw [publish_post_of_netError hv] at hq'
          exact retry_le_fail_update hnd hselm hp hq'
      · rw [publish_post_of_validate_fail hv] at hq'
        exact retry_le_fail_update hnd hselm hp hq'

theorem retry_eq_applyOp_nonpublish (env : Env) (store : Store) (now : Nat)
    (op : CoreOp)
    (hop : ∀ (did : String) (resp : HttpOutcome), op ≠ CoreOp.publishOp did resp)
    {id : String} {p q : LinkedInDraft}
    (hp : findDraft store id = some p)
    (hq : findDraft (applyOp env store now op) id = some q) :
    q.retry_count = p.retry_count := by
  cases op with
  | createOp content did =>
    have hq' : findDraft (store ++ [(Database.create_post store content did
      now).1]) id = some q := hq
    rw [findDraft_append hp] at hq'
    cases Option.some.inj hq'
    rfl
  | surfaceOp did m c =>
    simp only [applyOp] at hq
    cases hsel : (Database.get_pending_posts store).find?
        (fun x => x.draft_id == did) with
    | none =>
      rw [hsel] at hq
      have hq' : findDraft store id = some q := hq
      rw [hp] at hq'
      cases Option.some.inj hq'
      rfl
    | some sel =>
      rw [hsel] at hq
      have hq' : findDraft (updateFirst store sel.draft_id
        (applyUpdate PostStatus.PENDING
          [("discord_message_id", .vstr m), ("discord_channel_id", .vstr c)]
          now)).2 id = some q := hq
      exact retry_eq_point (hf_surface m c now) (hr_surface m c now) hp hq'
  | decideOp did a u =>
    cases a with
    | approved =>
      have hq' : findDraft (updateFirst store did
        (applyUpdate PostStatus.APPROVED_FOR_SOCIALS
          [("discord_approver", .vstr u)] now)).2 id = some q := hq
      exact retry_eq_point (hf_approve u now) (hr_approve u now) hp hq'
    | rejected =>
      have hq' : findDraft (updateFirst store did
        (applyUpdate PostStatus.DECLINED
          [("discord_approver", .vstr u),
           ("last_error", .vstr "Rejected via Discord button")] now)).2 id =
        some q := hq
      exact retry_eq_point (hf_reject u now) (hr_reject u now) hp hq'
    | edit_requested =>
      have hq' : findDraft (updateFirst store did
        (applyUpdate PostStatus.PENDING
          [("discord_approver", .vstr u),
           ("last_error", .vstr "Edit requested via Discord button")]
          now)).2 id = some q := hq
      exact retry_eq_point (hf_edit u now) (hr_edit u now) hp hq'
  | publishOp did resp => exact absurd rfl (hop did resp)

theorem retry_eq_publish_success (tok pid : Option String) (store : Store)
    (post : LinkedInDraft) (resp : HttpOutcome) (now : Nat)
    (hs : (LinkedInPublisher.publish_post tok pid store post resp
      now).1.success = true)
    {id : String} {p q : LinkedInDraft}
    (hp : findDraft store id = some p)
    (hq : findDraft (LinkedInPublisher.publish_post tok pid store post resp
      now).2 id = some q) :
    q.retry_count = p.retry_count := by
  by_cases hv : LinkedInPublisher.validate_post tok pid post = []
  · cases resp with
    | created201 X =>
      rw [publish_post_of_created hv] at hq
      exact retry_eq_point (hf_posted X _ now) (hr_posted X _ now) hp hq
    | httpError code text =>
      rw [publish_post_of_httpError hv] at hs
      simp at hs
    | netError msg =>
      rw [publish_post_of_netError hv] at hs
      simp at hs
  · rw [publish_post_of_validate_fail hv] at hs
    simp at hs

theorem hl_approve (user : String) (now : Nat) :
    ∀ x : LinkedInDraft,
      (applyUpdate PostStatus.APPROVED_FOR_SOCIALS
        [("discord_approver", .vstr user)] now x).linkedin_post_id =
      x.linkedin_post_id :=
  fun _ => rfl

theorem hl_reject (user : String) (now : Nat) :
    ∀ x : LinkedInDraft,
      (applyUpdate PostStatus.DECLINED
        [("discord_approver", .vstr user),
         ("last_error", .vstr "Rejected via Discord button")]
        now x).linkedin_post_id = x.linkedin_post_id :=
  fun _ => rfl

theorem hl_edit (user : String) (now : Nat) :
    ∀ x : LinkedInDraft,
      (applyUpdate PostStatus.PENDING
        [("discord_approver", .vstr user),
         ("last_error", .vstr "Edit requested via Discord button")]
        now x).linkedin_post_id = x.linkedin_post_id :=
  fun _ => rfl

theorem hl_surface (m c : String) (now : Nat) :
    ∀ x : LinkedInDraft,
      (applyUpdate PostStatus.PENDING
        [("discord_message_id", .vstr m), ("discord_channel_id", .vstr c)]
        now x).linkedin_post_id = x.linkedin_post_id :=
  fun _ => rfl

theorem pending_ne_posted :
    PostStatus.PENDING.value ≠ PostStatus.POSTED.value := by decide

theorem approved_ne_posted :
    PostStatus.APPROVED_FOR_SOCIALS.value ≠ PostStatus.POSTED.value := by
  decide

theorem declined_ne_posted :
    PostStatus.DECLINED.value ≠ PostStatus.POSTED.value := by decide

theorem hns_approve (user : String) (now : Nat) :
    ∀ x : LinkedInDraft,
      (applyUpdate PostStatus.APPROVED_FOR_SOCIALS
        [("discord_approver", .vstr user)] now x).status ≠
      PostStatus.POSTED.value :=
  fun _ hcon => approved_ne_posted hcon

theorem hns_reject (user : String) (now : Nat) :
    ∀ x : LinkedInDraft,
      (applyUpdate PostStatus.DECLINED
        [("discord_approver", .vstr user),
         ("last_error", .vstr "Rejected via Discord button")] now x).status ≠
      PostStatus.POSTED.value :=
  fun _ hcon => declined_ne_posted hcon

theorem hns_edit (user : String) (now : Nat) :
    ∀ x : LinkedInDraft,
      (applyUpdate PostStatus.PENDING
        [("discord_approver", .vstr user),
         ("last_error", .vstr "Edit requested via Discord button")]
        now x).status ≠ PostStatus.POSTED.value :=
  fun _ hcon => pending_ne_posted hcon

theorem hns_surface (m c : String) (now : Nat) :
    ∀ x : LinkedInDraft,
      (applyUpdate PostStatus.PENDING
        [("discord_message_id", .vstr m), ("discord_channel_id", .vstr c)]
        now x).status ≠ PostStatus.POSTED.value :=
  fun _ hcon => pending_ne_posted hcon

theorem frame_point {store : Store} {tid : String}
    {f : LinkedInDraft → LinkedInDraft}
    (hf : ∀ x, (f x).draft_id = x.draft_id)
    (hl : ∀ x, (f x).linkedin_post_id = x.linkedin_post_id)
    (hns : ∀ x, (f x).status ≠ PostStatus.POSTED.value)
    {id : String} {p q : LinkedInDraft}
    (hp : findDraft store id = some p)
    (hq : findDraft (updateFirst store tid f).2 id = some q) :
    q.linkedin_post_id = p.linkedin_post_id ∧
      (q.status = PostStatus.POSTED.value →
        p.status = PostStatus.POSTED.value) := by
  rcases findDraft_updateFirst_point hf hp hq with ⟨_, rfl⟩ | rfl
  · exact ⟨hl p, fun hcon => absurd hcon (hns p)⟩
  · exact ⟨rfl, fun hcon => hcon⟩

theorem publishedLink_applyOp (env : Env) (store : Store) (now : Nat)
    (op : CoreOp) (h : publishedLink store) :
    publishedLink (applyOp env store now op) := by
  cases op with
  | createOp content did =>
    intro q hq hs
    have hq' : q ∈ store ++ [(Database.create_post store content did now).1] :=
      hq
    rcases List.mem_append.mp hq' with hm | hm
    · exact h q hm hs
    · rw [List.mem_singleton] at hm
      subst hm
      exact absurd hs pending_ne_posted
  | surfaceOp did m c =>
    intro q hq hs
    simp only [applyOp] at hq
    cases hsel : (Database.get_pending_posts store).find?
        (fun x => x.draft_id == did) with
    | none =>
      rw [hsel] at hq
      exact h q hq hs
    | some sel =>
      rw [hsel] at hq
      have hq' : q ∈ (updateFirst store sel.draft_id
        (applyUpdate PostStatus.PENDING
          [("discord_message_id", .vstr m), ("discord_channel_id", .vstr c)]
          now)).2 := hq
      rcases mem_updateFirst_weak hq' with hm | ⟨x, hx, rfl⟩
      · exact h q hm hs
      · exact absurd hs (hns_surface m c now x)
  | decideOp did a u =>
    intro q hq hs
    cases a with
    | approved =>
      have hq' : q ∈ (updateFirst store did
        (applyUpdate PostStatus.APPROVED_FOR_SOCIALS
          [("discord_approver", .vstr u)] now)).2 := hq
      rcases mem_updateFirst_weak hq' with hm | ⟨x, hx, rfl⟩
      · exact h q hm hs
      · exact absurd hs (hns_approve u now x)
    | rejected =>
      have hq' : q ∈ (updateFirst store did
        (applyUpdate PostStatus.DECLINED
          [("discord_approver", .vstr u),
           ("last_error", .vstr "Rejected via Discord button")] now)).2 := hq
      rcases mem_updateFirst_weak hq' with hm | ⟨x, hx, rfl⟩
      · exact h q hm hs
      · exact absurd hs (hns_reject u now x)
    | edit_requested =>
      have hq' : q ∈ (updateFirst store did
        (applyUpdate PostStatus.PENDING
          [("discord_approver", .vstr u),
           ("last_error", .vstr "Edit requested via Discord button")]
          now)).2 := hq
      rcases mem_updateFirst_weak hq' with hm | ⟨x, hx, rfl⟩
      · exact h q hm hs
      · exact absurd hs (hns_edit u now x)
  | publishOp did resp =>
    intro q hq hs
    simp only [applyOp] at hq
    cases hsel : (Database.get_approved_posts store).find?
        (fun x => x.draft_id == did) with
    | none =>
      rw [hsel] at hq
      exact h q hq hs
    | some sel =>
      rw [hsel] at hq
      have hq' : q ∈ (LinkedInPublisher.publish_post env.access_token
        env.person_id store sel resp now).2 := hq
      by_cases hv : LinkedInPublisher.validate_post env.access_token
          env.person_id sel = []
      · cases resp with
        | created201 X =>
          rw [publish_post_of_created hv] at hq'
          rcases mem_updateFirst_weak hq' with hm | ⟨x, hx, rfl⟩
          · exact h q hm hs
          · rw [applyUpdate_posted_eq]
            simp
        | httpError code text =>
          rw [publish_post_of_httpError hv] at hq'
          rcases mem_updateFirst_weak hq' with hm | ⟨x, hx, rfl⟩
          · exact h q hm hs
          · exact absurd hs declined_ne_posted
        | netError msg =>
          rw [publish_post_of_netError hv] at hq'
          rcases mem_updateFirst_weak hq' with hm | ⟨x, hx, rfl⟩
          · exact h q hm hs
          · exact absurd hs declined_ne_posted
      · rw [publish_post_of_validate_fail hv] at hq'
        rcases mem_updateFirst_weak hq' with hm | ⟨x, hx, rfl⟩
        · exact h q hm hs
        · exact absurd hs declined_ne_posted

theorem frame_nonpublish (env : Env) (store : Store) (now : Nat) (op : CoreOp)
    (hop : ∀ (did : String) (resp : HttpOutcome), op ≠ CoreOp.publishOp did resp)
    {id : String} {p q : LinkedInDraft}
    (hp : findDraft store id = some p)
    (hq : findDraft (applyOp env store now op) id = some q) :
    q.linkedin_post_id = p.linkedin_post_id ∧
      (q.status = PostStatus.POSTED.value →
        p.status = PostStatus.POSTED.value) := by
  cases op with
  | createOp content did =>
    have hq' : findDraft (store ++ [(Database.create_post store content did
      now).1]) id = some q := hq
    rw [findDraft_append hp] at hq'
    cases Option.some.inj hq'
    exact ⟨rfl, fun hcon => hcon⟩
  | surfaceOp did m c =>
    simp only [applyOp] at hq
    cases hsel : (Database.get_pending_posts store).find?
        (fun x => x.draft_id == did) with
    | none =>
      rw [hsel] at hq
      have hq' : findDraft store id = some q := hq
      rw [hp] at hq'
      cases Option.some.inj hq'
      exact ⟨rfl, fun hcon => hcon⟩
    | some sel =>
      rw [hsel] at hq
      have hq' : findDraft (updateFirst store sel.draft_id
        (applyUpdate PostStatus.PENDING
          [("discord_message_id", .vstr m), ("discord_channel_id", .vstr c)]
          now)).2 id = some q := hq
      exact frame_point (hf_surface m c now) (hl_surface m c now)
        (hns_surface m c now) hp hq'
  | decideOp did a u =>
    cases a with
    | approved =>
      have hq' : findDraft (updateFirst store did
        (applyUpdate PostStatus.APPROVED_FOR_SOCIALS
          [("discord_approver", .vstr u)] now)).2 id = some q := hq
      exact frame_point (hf_approve u now) (hl_approve u now)
        (hns_approve u now) hp hq'
    | rejected =>
      have hq' : findDraft (updateFirst store did
        (applyUpdate PostStatus.DECLINED
          [("discord_approver", .vstr u),
           ("last_error", .vstr "Rejected via Discord button")] now)).2 id =
        some q := hq
      exact frame_point (hf_reject u now) (hl_reject u now)
        (hns_reject u now) hp hq'
    | edit_requested =>
      have hq' : findDraft (updateFirst store did
        (applyUpdate PostStatus.PENDING
          [("discord_approver", .vstr u),
           ("last_error", .vstr "Edit requested via Discord button")]
          now)).2 id = some q := hq
      exact frame_point (hf_edit u now) (hl_edit u now) (hns_edit u now) hp hq'
  | publishOp did resp => exact absurd rfl (hop did resp)

theorem sampleLong_length : (String.mk (List.replicate 3500 'a')).length = 3500 := by
  show (List.replicate 3500 'a').length = 3500
  exact List.length_replicate _ _

/-- Claim C6: across all core operations the retry counter of every stored
row is non-decreasing (under the primary-key property of the table); it is
unchanged by every operation other than a publish attempt — so it is never
reset — and a successful publish attempt also leaves it unchanged, so it
increases only when a publish attempt fails. -/
theorem claim_C6_retry_monotone :
    (∀ (env : Env) (store : Store) (now : Nat) (op : CoreOp),
      distinctIds store →
      ∀ (id : String) (p q : LinkedInDraft),
        findDraft store id = some p →
        findDraft (applyOp env store now op) id = some q →
        p.retry_count ≤ q.retry_count) ∧
    (∀ (env : Env) (store : Store) (now : Nat) (op : CoreOp),
      (∀ (did : String) (resp : HttpOutcome),
        op ≠ CoreOp.publishOp did resp) →
      ∀ (id : String) (p q : LinkedInDraft),
        findDraft store id = some p →
        findDraft (applyOp env store now op) id = some q →
        q.retry_count = p.retry_count) ∧
    (∀ (tok pid : Option String) (store : Store) (post : LinkedInDraft)
        (resp : HttpOutcome) (now : Nat),
      (LinkedInPublisher.publish_post tok pid store post resp
        now).1.success = true →
      ∀ (id : String) (p q : LinkedInDraft),
        findDraft store id = some p →
        findDraft (LinkedInPublisher.publish_post tok pid store post resp
          now).2 id = some q →
        q.retry_count = p.retry_count) :=
  ⟨fun env store now op hnd _ _ _ hp hq =>
      retry_le_applyOp env store now op hnd hp hq,
   fun env store now op hop _ _ _ hp hq =>
      retry_eq_applyOp_nonpublish env store now op hop hp hq,
   fun tok pid store post resp now hs _ _ _ hp hq =>
      retry_eq_publish_success tok pid store post resp now hs hp hq⟩

/-- Witness for C6 on a concrete store: an approval decision leaves the retry
counter of the single row unchanged (and hence non-decreasing). -/
theorem claim_C6_witness :
    distinctIds [sampleDraft] ∧
    findDraft [sampleDraft] "d1" = some sampleDraft ∧
    findDraft (applyOp cexEnv [sampleDraft] 1
      (.decideOp "d1" .approved "alice")) "d1" =
      some (applyUpdate PostStatus.APPROVED_FOR_SOCIALS
        [("discord_approver", .vstr "alice")] 1 sampleDraft) ∧
    sampleDraft.retry_count ≤
      (applyUpdate PostStatus.APPROVED_FOR_SOCIALS
        [("discord_approver", .vstr "alice")] 1 sampleDraft).retry_count :=
  ⟨by unfold distinctIds; decide, rfl, rfl,
   claim_C6_retry_monotone.1 cexEnv [sampleDraft] 1
     (.decideOp "d1" .approved "alice") (by unfold distinctIds; decide) "d1"
     sampleDraft _ rfl rfl⟩

/-- Counterexample to C7 as stated: the store `cexS4` is reachable through
the core operations (create, approve, publish succeeding with `"X123"`, then
a late decline applied without any status check), and in it the row has a
non-null external post id while its status is `declined`, not `posted` — the
claimed equivalence fails in the converse direction. -/
theorem claim_C7_counterexample :
    Reachable cexEnv cexS4 ∧
    (findDraft cexS4 "d1").map (fun p => (p.status, p.linkedin_post_id)) =
      some (PostStatus.DECLINED.value, some "X123") := by
  constructor
  · exact Reachable.step _ _ (Reachable.step _ _ (Reachable.step _ _
      (Reachable.step _ _ Reachable.init)))
  · decide

/-- Claim C7 (amended): in every reachable store the forward direction holds
— a `posted` row carries a non-null external post id, and only a successful
publish attempt sets the `posted` status or the external id (every
non-publish operation preserves `linkedin_post_id` and never introduces the
`posted` status).  The converse direction of the claimed equivalence is
false: a reviewer decision applied to a published row moves its status away
from `posted` while the external id remains set. -/
theorem claim_C7_published_link :
    (∀ (env : Env) (s : Store), Reachable env s → publishedLink s) ∧
    (∀ (env : Env) (store : Store) (now : Nat) (op : CoreOp),
      (∀ (did : String) (resp : HttpOutcome),
        op ≠ CoreOp.publishOp did resp) →
      ∀ (id : String) (p q : LinkedInDraft),
        findDraft store id = some p →
        findDraft (applyOp env store now op) id = some q →
        q.linkedin_post_id = p.linkedin_post_id ∧
          (q.status = PostStatus.POSTED.value →
            p.status = PostStatus.POSTED.value)) := by
  constructor
  · intro env s h
    induction h with
    | init => intro q hq _; cases hq
    | step op now _ ih => exact publishedLink_applyOp _ _ _ _ ih
  · intro env store now op hop id p q hp hq
    exact frame_nonpublish env store now op hop hp hq

/-- Witness for C7: the reachable store `cexS3` contains the published row,
and the invariant instantiates to its non-null external id. -/
theorem claim_C7_witness :
    Reachable cexEnv cexS3 ∧ cexPosted ∈ cexS3 ∧
    cexPosted.status = PostStatus.POSTED.value ∧
    cexPosted.linkedin_post_id ≠ none := by
  have hreach : Reachable cexEnv cexS3 :=
    Reachable.step _ _ (Reachable.step _ _ (Reachable.step _ _ Reachable.init))
  exact ⟨hreach, by decide, rfl,
    claim_C7_published_link.1 cexEnv cexS3 hreach cexPosted (by decide) rfl⟩

/-- Witness for C2 at Scenario C: the approved row with 3500-character
content fails to publish, is declined with retry counter 1, and its last
error ends in the character-limit message. -/
theorem claim_C2_witness :
    sampleLong.post = some (String.mk (List.replicate 3500 'a')) ∧
    (String.mk (List.replicate 3500 'a')).length > 3000 ∧
    ((LinkedInPublisher.publish_post (some "tok") (some "pid") [sampleLong]
        sampleLong (.created201 "X999") 2).1.success = false ∧
      ∃ q, findDraft (LinkedInPublisher.publish_post (some "tok") (some "pid")
          [sampleLong] sampleLong (.created201 "X999") 2).2
          sampleLong.draft_id = some q ∧
        q.status = PostStatus.DECLINED.value ∧ q.retry_count = 1 ∧
        ∃ e pre, q.last_error = some e ∧
          e = pre ++ "Post content exceeds LinkedIn\x27s 3000 character limit") :=
  ⟨rfl, by rw [sampleLong_length]; decide,
   claim_C2_over_limit_publish_fails (some "tok") (some "pid") [sampleLong]
     sampleLong (String.mk (List.replicate 3500 'a')) (.created201 "X999") 2
     rfl rfl (by rw [sampleLong_length]; decide) rfl⟩

/-- Witness for C3 at Scenario D: publishing the approved sample row with
external id `"X123"` succeeds, persists the id, keeps the retry counter, and
records no URL. -/
theorem claim_C3_witness :
    LinkedInPublisher.validate_post (some "tok") (some "pid") sampleApproved =
      [] ∧
    ((LinkedInPublisher.publish_post (some "tok") (some "pid")
        [sampleApproved] sampleApproved (.created201 "X123") 2).1.success =
      true ∧
      (LinkedInPublisher.publish_post (some "tok") (some "pid")
        [sampleApproved] sampleApproved (.created201 "X123")
        2).1.linkedin_post_id = some "X123" ∧
      (LinkedInPublisher.publish_post (some "tok") (some "pid")
        [sampleApproved] sampleApproved (.created201 "X123")
        2).1.linkedin_url =
        LinkedInPublisher.generate_post_url (some "X123") ∧
      hasattrLinkedInDraft "linkedin_url" = false ∧
      findDraft (LinkedInPublisher.publish_post (some "tok") (some "pid")
          [sampleApproved] sampleApproved (.created201 "X123") 2).2
          sampleApproved.draft_id =
        some { sampleApproved with status := PostStatus.POSTED.value,
                                   posted_at := some 2,
                                   linkedin_post_id := some "X123" } ∧
      ({ sampleApproved with status := PostStatus.POSTED.value,
                              posted_at := some 2,
                              linkedin_post_id := some "X123" }
        : LinkedInDraft).retry_count = sampleApproved.retry_count) :=
  ⟨rfl, claim_C3_publish_success (some "tok") (some "pid") [sampleApproved]
    sampleApproved "X123" 2 rfl rfl⟩

/-- Witness for C5: surfacing the concrete pending row writes its message
reference while keeping the status `pending`. -/
theorem claim_C5_witness :
    distinctIds [sampleDraft] ∧
    findDraft (LinkedInBot.send_approval_request [sampleDraft] sampleDraft
        "m1" "ch1" 1) sampleDraft.draft_id =
      some { sampleDraft with status := PostStatus.PENDING.value,
                              discord_message_id := some "m1",
                              discord_channel_id := some "ch1" } :=
  ⟨by unfold distinctIds; decide,
   (claim_C5_surface_idempotent [sampleDraft] sampleDraft "m1" "ch1" 1
     (by unfold distinctIds; decide) rfl rfl rfl).2.1⟩

/-- Witness for C9: a RequestEdit on the surfaced concrete row keeps it
pending with the reviewer and reason recorded. -/
theorem claim_C9_witness :
    distinctIds [sampleSurfaced] ∧
    findDraft (ApprovalView.handle_approval [sampleSurfaced]
        sampleSurfaced.draft_id .edit_requested "carol" 3).2
        sampleSurfaced.draft_id =
      some { sampleSurfaced with status := PostStatus.PENDING.value,
                                 discord_approver := some "carol",
                                 last_error := some "Edit requested via Discord button" } :=
  ⟨by unfold distinctIds; decide,
   (claim_C9_request_edit [sampleSurfaced] sampleSurfaced "carol" "m1" 3
     (by unfold distinctIds; decide) rfl rfl rfl).2.1⟩
